import Mathlib

/-!
Verification of the visualisation module of pyknot2
(`pyknot2/visualise.py`).

A shallow embedding of the visualisation module of pyknot2.  Real numbers
(Python floats) are modelled as rationals, numpy arrays of points as lists
of coordinate triples, and the side-effecting rendering calls as explicit
event traces.  Toolkit availability (whether `import mayavi` etc. succeeds)
is modelled by an explicit environment of booleans.
-/

/-- A 3d point (a row of the `nx3` numpy array). -/
abbrev Point3 : Type := ℚ × ℚ × ℚ

/-- An RGB colour triple, as returned by `colorsys.hsv_to_rgb`. -/
abbrev Colour : Type := ℚ × ℚ × ℚ

def Point3.x (p : Point3) : ℚ := p.1

def Point3.y (p : Point3) : ℚ := p.2.1

def Point3.z (p : Point3) : ℚ := p.2.2

/-- Shallow embedding of `numpy.linspace a b num`: `num` evenly spaced samples over the closed
interval `[a, b]`.  For `num = 1` numpy returns `[a]`; here the formula
degenerates to the same value because division by zero yields zero in `ℚ`. -/
def linspace (a b : ℚ) (num : ℕ) : List ℚ :=
  (List.range num).map (fun i : ℕ => a + (b - a) * (i : ℚ) / ((num : ℚ) - 1))

/-- The function `colorsys.hsv_to_rgb`, translated clause by clause from the CPython
standard library (the chain of `if i == 0: ...` returns).  `int()` on the
nonnegative arguments used here agrees with the floor. -/
def hsv_to_rgb (h s v : ℚ) : Colour :=
  if s = 0 then (v, v, v) else
  let i : ℤ := ⌊h * 6⌋
  let f : ℚ := h * 6 - (i : ℚ)
  let p : ℚ := v * (1 - s)
  let q : ℚ := v * (1 - s * f)
  let t : ℚ := v * (1 - s * (1 - f))
  let i6 : ℤ := i % 6
  if i6 = 0 then (v, t, p)
  else if i6 = 1 then (q, v, p)
  else if i6 = 2 then (p, v, t)
  else if i6 = 3 then (p, q, v)
  else if i6 = 4 then (t, p, v)
  else (v, p, q)

/-- Hue recovery for fully saturated, full-value colours: a left inverse of
`fun h => hsv_to_rgb h 1 1` on `[0, 1)`, used to prove that distinct hues
give distinct colours. -/
def hueOf (c : Colour) : ℚ :=
  if c.2.2 = 0 then (if c.1 = 1 then c.2.1 / 6 else (2 - c.1) / 6)
  else if c.1 = 0 then (if c.2.2 = 1 then (4 - c.2.1) / 6 else (2 + c.2.2) / 6)
  else if c.2.1 = 0 then (if c.1 = 1 then (6 - c.2.2) / 6 else (4 + c.1) / 6)
  else 0

/-- The value `numpy.min` computes on a nonempty list (the value on `[]` is irrelevant:
numpy raises there and callers guard or are given nonempty input). -/
def listMin : List ℚ → ℚ
  | [] => 0
  | x :: xs => xs.foldl min x

/-- The value `numpy.max` computes on a nonempty list. -/
def listMax : List ℚ → ℚ
  | [] => 0
  | x :: xs => xs.foldl max x

def cellColours (k : ℕ) : List Colour :=
  ((linspace 0 1 (k + 1)).dropLast).map (fun hue => hsv_to_rgb hue 1 1)

/-- Availability of the three candidate toolkits in the running process.
`matplotlibImportOk` models `import matplotlib.pyplot` / `mpl_toolkits`
succeeding; `matplotlib3dOk` models the extra probe step
`fig = plt.figure(); ax = fig.add_subplot(111, projection='3d')`
succeeding (its failure raises `ValueError`, caught by the same handler
as `ImportError`). -/
structure Env where
  mayaviOk : Bool
  matplotlibImportOk : Bool
  matplotlib3dOk : Bool
  vispyOk : Bool
deriving DecidableEq, Fintype

/-- The three sequential `if mode == 'auto':` probe blocks of `plot_line`.
Returns the final value of the `mode` variable together with the list of
toolkits whose probe was actually executed, in execution order. -/
def plot_line_resolve (env : Env) (mode : String) : String × List String :=
  let s1 := if mode = "auto" then
      ((if env.mayaviOk then "mayavi" else mode), ["mayavi"])
    else (mode, [])
  let s2 := if s1.1 = "auto" then
      ((if env.matplotlibImportOk && env.matplotlib3dOk then "matplotlib" else s1.1),
        s1.2 ++ ["matplotlib"])
    else s1
  let s3 := if s2.1 = "auto" then
      ((if env.vispyOk then "vispy" else s2.1), s2.2 ++ ["vispy"])
    else s2
  s3

/-- The message of the `ImportError` raised when every probe fails. -/
def importErrorMsg : String :=
  "Couldn\x27t import any of mayavi, vispy, or matplotlib\x27s 3d axes."

/-- Either the name of the toolkit adapter a call dispatched to, or the
message of the exception the call raised. -/
inductive Outcome
  | ok (adapter : String)
  | error (msg : String)
deriving DecidableEq

/-- Result of a `plot_line` call: which probes ran, and the outcome. -/
structure PlotLineResult where
  probed : List String
  outcome : Outcome
deriving DecidableEq

/-- Mode resolution and dispatch of `plot_line` (the drawing itself is the
adapter's business; the dispatched-to adapter is recorded). -/
def plot_line (env : Env) (mode : String) : PlotLineResult :=
  let r := plot_line_resolve env mode
  if r.1 = "auto" then ⟨r.2, .error importErrorMsg⟩
  else if r.1 = "mayavi" then ⟨r.2, .ok "mayavi"⟩
  else if r.1 = "vispy" then ⟨r.2, .ok "vispy"⟩
  else if r.1 = "matplotlib" then ⟨r.2, .ok "matplotlib"⟩
  else ⟨r.2, .error "invalid toolkit/mode"⟩

/-- Is `t` a contiguous substring of `s` (on the character lists)?  Used to
state that an error message names a toolkit. -/
def prefixOfCheck : List Char → List Char → Bool
  | [], _ => true
  | _ :: _, [] => false
  | a :: as, b :: bs => a == b && prefixOfCheck as bs

def subOfCheck : List Char → List Char → Bool
  | t, [] => prefixOfCheck t []
  | t, c :: s => prefixOfCheck t (c :: s) || subOfCheck t s

/-- The quantity `n.max(n.max(points, axis=0))`: the per-axis maxima, then their
maximum, i.e. the largest (signed) coordinate value of the point set. -/
def overallMax (points : List Point3) : ℚ :=
  listMax [listMax (points.map Point3.x), listMax (points.map Point3.y),
    listMax (points.map Point3.z)]

/-- The centroid `n.average(points, axis=0)`: the componentwise mean (the centroid). -/
def average (points : List Point3) : Point3 :=
  ((points.map Point3.x).sum / points.length,
   (points.map Point3.y).sum / points.length,
   (points.map Point3.z).sum / points.length)

/-- What `plot_line_vispy` builds on its canvas: the tube's points and
per-point colours, the turntable camera's distance, and the translation
installed on the tube visual after construction. -/
structure VispyCanvas where
  tubePoints : List Point3
  tubeColours : List Colour
  cameraDistance : ℚ
  translation : Point3

/-- The adapter `plot_line_vispy`: colours are evenly spaced hues through
full-saturation full-value HSV, the camera distance is
`1.5*n.max(n.max(points, axis=0))`, and the tube is translated by
`-1*n.average(points, axis=0)`. -/
def plot_line_vispy (points : List Point3) : VispyCanvas :=
  { tubePoints := points
    tubeColours := (linspace 0 1 points.length).map (fun c => hsv_to_rgb c 1 1)
    cameraDistance := 3 / 2 * overallMax points
    translation := (-1 * (average points).x, -1 * (average points).y,
      -1 * (average points).z) }

/-- The quantity the spec's words describe for the camera distance base:
"the maximum absolute coordinate value across the (pre-translation) point
set".  Stated only to be compared against what the code computes. -/
def maxAbsCoordSpec (points : List Point3) : ℚ :=
  listMax ((points.map Point3.x ++ points.map Point3.y ++ points.map Point3.z).map
    (fun q => |q|))

/-- The matplotlib calls `plot_projection` makes on its axes, in order. -/
inductive PEvent
  | plotPath (xs ys : List ℚ)
  | setXlim (lo hi : ℚ)
  | setYlim (lo hi : ℚ)
  | startMarker (x y : ℚ)
  | crossingMarkers (cs : List (ℚ × ℚ))
deriving DecidableEq

/-- The function `plot_projection`.  Returns `none` when the call raises (`n.min` on an
empty point array); otherwise the trace of axes calls.  The final
`if crossings is not None and len(crossings):` is the two-stage guard:
`none` fails the first test, an empty list fails the length test. -/
def plot_projection (points : List Point3) (crossings : Option (List (ℚ × ℚ)))
    (mark_start : Bool) : Option (List PEvent) :=
  if points.isEmpty then none else
  let xs := points.map Point3.x
  let ys := points.map Point3.y
  let dx := (listMax xs - listMin xs) / 10
  let dy := (listMax ys - listMin ys) / 10
  some ([PEvent.plotPath xs ys,
    PEvent.setXlim (listMin xs - dx) (listMax xs + dx),
    PEvent.setYlim (listMin ys - dy) (listMax ys + dy)]
    ++ (if mark_start then [PEvent.startMarker points.headI.x points.headI.y] else [])
    ++ (match crossings with
        | none => []
        | some cs => if cs.length ≠ 0 then [PEvent.crossingMarkers cs] else []))

/-- The x-limits that were set in a projection trace. -/
def xlimOf (tr : List PEvent) : Option (ℚ × ℚ) :=
  tr.findSome? (fun e => match e with | .setXlim a b => some (a, b) | _ => none)

/-- The y-limits that were set in a projection trace. -/
def ylimOf (tr : List PEvent) : Option (ℚ × ℚ) :=
  tr.findSome? (fun e => match e with | .setYlim a b => some (a, b) | _ => none)

/-- All crossing-marker positions drawn in a projection trace. -/
def crossingsDrawn (tr : List PEvent) : List (ℚ × ℚ) :=
  tr.flatMap (fun e => match e with | .crossingMarkers cs => cs | _ => [])

/-- A segment of a curve, as handed to one `plot_line` call. -/
abbrev Seg : Type := List Point3

/-- The mayavi calls a `plot_cell` invocation makes, in order:
`may.clf()`, then one `plot_line(segment, clf=False, color=colour)` per
segment.  `drawBoundaryBox` is the draw the spec prescribes for a supplied
boundary; it is part of the event vocabulary so that its absence from
every trace is expressible. -/
inductive CellEvent
  | clearScene
  | drawLine (seg : Seg) (clf : Bool) (colour : Colour)
  | drawBoundaryBox (extents : List ℚ)
deriving DecidableEq

def CellEvent.isBoundaryDraw : CellEvent → Bool
  | .drawBoundaryBox _ => true
  | _ => false

/-- A user-supplied boundary: a scalar (`float`/`int`) or a tuple. -/
inductive Boundary
  | scalar (s : ℚ)
  | tuple (l : List ℚ)

/-- Modelled from the spec: `ensure_shape_tuple` lives in `pyknot2.utils`,
which is not part of the given sources.  Per the spec's BoundarySpec, a
single scalar is "a cube side length, applied to all three axes", i.e. it
becomes the 3-tuple `(s, s, s)`. -/
def ensure_shape_tuple (s : ℚ) : List ℚ := [s, s, s]

/-- The boundary-normalisation steps at the end of `plot_cell`: a scalar
goes through `ensure_shape_tuple`, then any length-3 tuple `(a, b, c)`
becomes `(0, a, 0, b, 0, c)`. -/
def normalise_boundary (b : Boundary) : List ℚ :=
  let bl := match b with
    | .scalar s => ensure_shape_tuple s
    | .tuple l => l
  match bl with
  | [a, b, c] => [0, a, 0, b, 0, c]
  | l => l

/-- The function `plot_cell`.  Its `shuffle` argument is the process-wide `random.shuffle`, injected
as a function so that statements can quantify over the permutation it
applies.  Returns the trace of mayavi calls together with the final value
of the normalised `boundary` local (which the code computes and then never
uses).  The `clf` parameter is accepted and ignored, exactly as in the
source. -/
def plot_cell (shuffle : List Colour → List Colour)
    (lines : List (List Seg)) (boundary : Option Boundary) (clf : Bool) :
    List CellEvent × Option (List ℚ) :=
  let colours := shuffle (cellColours lines.length)
  let trace := CellEvent.clearScene ::
    (lines.zip colours).flatMap
      (fun lc => lc.1.map (fun seg => CellEvent.drawLine seg false lc.2))
  (trace, boundary.map normalise_boundary)

/-- Did an `Outcome` dispatch to an adapter (as opposed to raising)? -/
def Outcome.isOk : Outcome → Bool
  | .ok _ => true
  | .error _ => false

/-- The draw calls of a `plot_cell` trace, each as
(segment, clf flag, colour). -/
def cellDraws (tr : List CellEvent) : List (Seg × Bool × Colour) :=
  tr.filterMap (fun e => match e with
    | .drawLine s b c => some (s, b, c)
    | _ => none)

/-- Three curves of two one-point segments each, used as the concrete
scene for the composition claims. -/
def cellLines3 : List (List Seg) :=
  [[[((0 : ℚ), 0, 0)], [(1, 0, 0)]],
   [[(2, 0, 0)], [(3, 0, 0)]],
   [[(4, 0, 0)], [(5, 0, 0)]]]

/-- A one-curve, one-segment scene for exercising the boundary path. -/
def cellLines1 : List (List Seg) := [[[((0 : ℚ), 0, 0), (1, 0, 0)]]]

lemma foldl_min_mem (xs : List ℚ) : ∀ x : ℚ, xs.foldl min x ∈ x :: xs := by
  induction xs with
  | nil => intro x; simp
  | cons y ys ih =>
    intro x
    have h := ih (min x y)
    rcases List.mem_cons.mp h with h' | h'
    · rcases min_cases x y with ⟨he, _⟩ | ⟨he, _⟩ <;> rw [List.foldl_cons, h', he] <;> simp
    · simp [List.foldl_cons, List.mem_cons.mpr (Or.inr (List.mem_cons.mpr (Or.inr h')))]

lemma foldl_min_le (xs : List ℚ) : ∀ x : ℚ, ∀ a ∈ x :: xs, xs.foldl min x ≤ a := by
  induction xs with
  | nil => intro x a ha; simp at ha; simp [ha]
  | cons y ys ih =>
    intro x a ha
    rw [List.foldl_cons]
    rcases List.mem_cons.mp ha with rfl | ha'
    · exact le_trans (ih (min a y) (min a y) (List.mem_cons_self _ _)) (min_le_left _ _)
    rcases List.mem_cons.mp ha' with rfl | ha''
    · exact le_trans (ih (min x a) (min x a) (List.mem_cons_self _ _)) (min_le_right _ _)
    · exact ih (min x y) a (List.mem_cons.mpr (Or.inr ha''))

lemma foldl_max_mem (xs : List ℚ) : ∀ x : ℚ, xs.foldl max x ∈ x :: xs := by
  induction xs with
  | nil => intro x; simp
  | cons y ys ih =>
    intro x
    have h := ih (max x y)
    rcases List.mem_cons.mp h with h' | h'
    · rcases max_cases x y with ⟨he, _⟩ | ⟨he, _⟩ <;> rw [List.foldl_cons, h', he] <;> simp
    · simp [List.foldl_cons, List.mem_cons.mpr (Or.inr (List.mem_cons.mpr (Or.inr h')))]

lemma foldl_le_max (xs : List ℚ) : ∀ x : ℚ, ∀ a ∈ x :: xs, a ≤ xs.foldl max x := by
  induction xs with
  | nil => intro x a ha; simp at ha; simp [ha]
  | cons y ys ih =>
    intro x a ha
    rw [List.foldl_cons]
    rcases List.mem_cons.mp ha with rfl | ha'
    · exact le_trans (le_max_left _ _) (ih (max a y) (max a y) (List.mem_cons_self _ _))
    rcases List.mem_cons.mp ha' with rfl | ha''
    · exact le_trans (le_max_right _ _) (ih (max x a) (max x a) (List.mem_cons_self _ _))
    · exact ih (max x y) a (List.mem_cons.mpr (Or.inr ha''))

lemma listMin_mem {l : List ℚ} (h : l ≠ []) : listMin l ∈ l := by
  cases l with
  | nil => exact absurd rfl h
  | cons x xs => exact foldl_min_mem xs x

lemma listMin_le {l : List ℚ} : ∀ a ∈ l, listMin l ≤ a := by
  cases l with
  | nil => intro a ha; simp at ha
  | cons x xs => exact foldl_min_le xs x

lemma listMax_mem {l : List ℚ} (h : l ≠ []) : listMax l ∈ l := by
  cases l with
  | nil => exact absurd rfl h
  | cons x xs => exact foldl_max_mem xs x

lemma le_listMax {l : List ℚ} : ∀ a ∈ l, a ≤ listMax l := by
  cases l with
  | nil => intro a ha; simp at ha
  | cons x xs => exact foldl_le_max xs x

lemma hueOf_hsv_full (h : ℚ) (h0 : 0 ≤ h) (h1 : h < 1) :
    hueOf (hsv_to_rgb h 1 1) = h := by
  have hk0 : 0 ≤ ⌊h * 6⌋ := Int.floor_nonneg.mpr (by linarith)
  have hk6 : ⌊h * 6⌋ < 6 := Int.floor_lt.mpr (by push_cast; linarith)
  have hcase : ⌊h * 6⌋ = 0 ∨ ⌊h * 6⌋ = 1 ∨ ⌊h * 6⌋ = 2 ∨ ⌊h * 6⌋ = 3 ∨
      ⌊h * 6⌋ = 4 ∨ ⌊h * 6⌋ = 5 := by omega
  have hfl := Int.floor_le (h * 6)
  have hfu := Int.lt_floor_add_one (h * 6)
  rcases hcase with hk | hk | hk | hk | hk | hk <;>
      rw [hk] at hfl hfu <;> push_cast at hfl hfu <;>
      simp only [hsv_to_rgb, hk] <;> norm_num <;> rw [hueOf] <;> norm_num
  all_goals first | (split_ifs <;> linarith) | linarith

lemma hsv_full_injOn {a b : ℚ} (ha0 : 0 ≤ a) (ha1 : a < 1) (hb0 : 0 ≤ b)
    (hb1 : b < 1) (heq : hsv_to_rgb a 1 1 = hsv_to_rgb b 1 1) : a = b := by
  have := congrArg hueOf heq
  rwa [hueOf_hsv_full a ha0 ha1, hueOf_hsv_full b hb0 hb1] at this

lemma linspace_zero_one (K : ℕ) :
    (linspace 0 1 (K + 1)).dropLast = (List.range K).map (fun i : ℕ => (i : ℚ) / K) := by
  rw [linspace, List.range_succ, List.map_append]
  simp only [List.map_cons, List.map_nil, List.dropLast_concat]
  apply List.map_congr_left
  intro i _
  push_cast
  ring

lemma cellColours_eq (k : ℕ) :
    cellColours k = (List.range k).map (fun i : ℕ => hsv_to_rgb ((i : ℚ) / k) 1 1) := by
  rw [cellColours, linspace_zero_one, List.map_map]
  rfl

lemma cellColours_length (k : ℕ) : (cellColours k).length = k := by
  rw [cellColours_eq]; simp

lemma cellColours_nodup (k : ℕ) : (cellColours k).Nodup := by
  rcases Nat.eq_zero_or_pos k with rfl | hk
  · simp [cellColours_eq]
  rw [cellColours_eq]
  refine List.Nodup.map_on ?_ (List.nodup_range k)
  intro i hi j hj heq
  simp only [List.mem_range] at hi hj
  have hkq : (0 : ℚ) < k := by exact_mod_cast hk
  have hij : (i : ℚ) / k = (j : ℚ) / k := by
    refine hsv_full_injOn ?_ ?_ ?_ ?_ heq
    · positivity
    · rw [div_lt_one hkq]; exact_mod_cast hi
    · positivity
    · rw [div_lt_one hkq]; exact_mod_cast hj
  have hkne : (k : ℚ) ≠ 0 := ne_of_gt hkq
  field_simp at hij
  exact_mod_cast hij

/-- C1.  With `mode='auto'`, the probes run in the fixed order
mayavi, matplotlib, vispy; the matplotlib probe succeeds exactly when both
the import and the figure/3d-subplot construction succeed, and a failure
of either is handled identically; the first toolkit whose probe succeeds
is selected and dispatched to, and no later candidate is probed. -/
theorem auto_mode_probe_order_and_short_circuit :
    ∀ env : Env,
      (env.mayaviOk = true →
        plot_line env "auto" = ⟨["mayavi"], .ok "mayavi"⟩)
      ∧ (env.mayaviOk = false → (env.matplotlibImportOk && env.matplotlib3dOk) = true →
        plot_line env "auto" = ⟨["mayavi", "matplotlib"], .ok "matplotlib"⟩)
      ∧ (env.mayaviOk = false → (env.matplotlibImportOk && env.matplotlib3dOk) = false →
          env.vispyOk = true →
        plot_line env "auto" =
          ⟨["mayavi", "matplotlib", "vispy"], .ok "vispy"⟩)
      ∧ (∀ env2 : Env, env.mayaviOk = env2.mayaviOk → env.vispyOk = env2.vispyOk →
          (env.matplotlibImportOk && env.matplotlib3dOk)
            = (env2.matplotlibImportOk && env2.matplotlib3dOk) →
          plot_line env "auto" = plot_line env2 "auto") := by
  decide

theorem auto_mode_probe_order_witness :
    plot_line ⟨true, true, true, true⟩ "auto" = ⟨["mayavi"], .ok "mayavi"⟩
    ∧ plot_line ⟨false, true, true, false⟩ "auto"
        = ⟨["mayavi", "matplotlib"], .ok "matplotlib"⟩
    ∧ plot_line ⟨false, false, true, true⟩ "auto"
        = ⟨["mayavi", "matplotlib", "vispy"], .ok "vispy"⟩
    ∧ plot_line ⟨false, false, true, false⟩ "auto"
        = plot_line ⟨false, true, false, false⟩ "auto" :=
  ⟨(auto_mode_probe_order_and_short_circuit ⟨true, true, true, true⟩).1 rfl,
   (auto_mode_probe_order_and_short_circuit ⟨false, true, true, false⟩).2.1 rfl rfl,
   (auto_mode_probe_order_and_short_circuit ⟨false, false, true, true⟩).2.2.1 rfl rfl rfl,
   (auto_mode_probe_order_and_short_circuit ⟨false, false, true, false⟩).2.2.2
     ⟨false, true, false, false⟩ rfl rfl rfl⟩

/-- C4.  When every probe fails in auto mode, `plot_line` raises the
ImportError whose message names all three candidates, after probing all
three, and no adapter is dispatched to. -/
theorem auto_mode_all_probes_fail (env : Env) (h1 : env.mayaviOk = false)
    (h2 : (env.matplotlibImportOk && env.matplotlib3dOk) = false)
    (h3 : env.vispyOk = false) :
    plot_line env "auto" = ⟨["mayavi", "matplotlib", "vispy"], .error importErrorMsg⟩
    ∧ subOfCheck "mayavi".toList importErrorMsg.toList = true
    ∧ subOfCheck "vispy".toList importErrorMsg.toList = true
    ∧ subOfCheck "matplotlib".toList importErrorMsg.toList = true
    ∧ (plot_line env "auto").outcome.isOk = false := by
  revert h1 h2 h3
  revert env
  decide

theorem auto_mode_all_probes_fail_witness :
    plot_line ⟨false, false, true, false⟩ "auto"
        = ⟨["mayavi", "matplotlib", "vispy"], .error importErrorMsg⟩
    ∧ subOfCheck "mayavi".toList importErrorMsg.toList = true
    ∧ subOfCheck "vispy".toList importErrorMsg.toList = true
    ∧ subOfCheck "matplotlib".toList importErrorMsg.toList = true
    ∧ (plot_line ⟨false, false, true, false⟩ "auto").outcome.isOk = false :=
  auto_mode_all_probes_fail ⟨false, false, true, false⟩ rfl rfl rfl

/-- C3.  Boundary normalisation: a scalar `s` becomes
`(0, s, 0, s, 0, s)`, a 3-tuple `(a, b, c)` becomes `(0, a, 0, b, 0, c)`,
and a 6-tuple is left unchanged. -/
theorem boundary_normaliser_cases :
    (∀ s : ℚ, normalise_boundary (.scalar s) = [0, s, 0, s, 0, s])
    ∧ (∀ a b c : ℚ, normalise_boundary (.tuple [a, b, c]) = [0, a, 0, b, 0, c])
    ∧ (∀ l : List ℚ, l.length = 6 → normalise_boundary (.tuple l) = l) := by
  refine ⟨fun s => rfl, fun a b c => rfl, ?_⟩
  intro l hl
  rcases l with _ | ⟨a, _ | ⟨b, _ | ⟨c, _ | ⟨d, _ | ⟨e, _ | ⟨f, _ | g⟩⟩⟩⟩⟩⟩ <;>
    simp_all [normalise_boundary]

theorem boundary_normaliser_cases_witness :
    normalise_boundary (.scalar 2) = [0, 2, 0, 2, 0, 2]
    ∧ normalise_boundary (.tuple [1, 2, 3]) = [0, 1, 0, 2, 0, 3]
    ∧ normalise_boundary (.tuple [1, 2, 3, 4, 5, 6]) = [1, 2, 3, 4, 5, 6] :=
  ⟨boundary_normaliser_cases.1 2, boundary_normaliser_cases.2.1 1 2 3,
   boundary_normaliser_cases.2.2 [1, 2, 3, 4, 5, 6] rfl⟩

lemma plot_projection_eq (points : List Point3) (hne : points ≠ [])
    (crossings : Option (List (ℚ × ℚ))) (ms : Bool) :
    plot_projection points crossings ms =
      some ([PEvent.plotPath (points.map Point3.x) (points.map Point3.y),
        PEvent.setXlim
          (listMin (points.map Point3.x)
            - (listMax (points.map Point3.x) - listMin (points.map Point3.x)) / 10)
          (listMax (points.map Point3.x)
            + (listMax (points.map Point3.x) - listMin (points.map Point3.x)) / 10),
        PEvent.setYlim
          (listMin (points.map Point3.y)
            - (listMax (points.map Point3.y) - listMin (points.map Point3.y)) / 10)
          (listMax (points.map Point3.y)
            + (listMax (points.map Point3.y) - listMin (points.map Point3.y)) / 10)]
        ++ (if ms then [PEvent.startMarker points.headI.x points.headI.y] else [])
        ++ (match crossings with
            | none => []
            | some cs => if cs.length ≠ 0 then [PEvent.crossingMarkers cs] else [])) := by
  have hempty : points.isEmpty = false := by
    cases points with
    | nil => exact absurd rfl hne
    | cons a l => rfl
  rw [plot_projection.eq_def, hempty]
  simp

/-- C5.  `plot_projection` sets the axis limits to the per-axis min
and max of the first two coordinates over all points, padded on each side
by 1/10 of that axis's range; for x-range `[0, 10]` the x-limits are
`(-1, 11)`; when a range is zero the padding is zero. -/
theorem projection_axis_padding :
    (∀ (points : List Point3), points ≠ [] →
      ∀ (crossings : Option (List (ℚ × ℚ))) (ms : Bool),
      ∃ tr, plot_projection points crossings ms = some tr
        ∧ xlimOf tr = some
            (listMin (points.map Point3.x)
              - (listMax (points.map Point3.x) - listMin (points.map Point3.x)) / 10,
             listMax (points.map Point3.x)
              + (listMax (points.map Point3.x) - listMin (points.map Point3.x)) / 10)
        ∧ ylimOf tr = some
            (listMin (points.map Point3.y)
              - (listMax (points.map Point3.y) - listMin (points.map Point3.y)) / 10,
             listMax (points.map Point3.y)
              + (listMax (points.map Point3.y) - listMin (points.map Point3.y)) / 10)
        ∧ listMin (points.map Point3.x) ∈ points.map Point3.x
        ∧ listMax (points.map Point3.x) ∈ points.map Point3.x
        ∧ (∀ a ∈ points.map Point3.x,
            listMin (points.map Point3.x) ≤ a ∧ a ≤ listMax (points.map Point3.x))
        ∧ (∀ c : ℚ, (∀ p ∈ points, Point3.x p = c) → xlimOf tr = some (c, c)))
    ∧ (∃ tr, plot_projection [((0 : ℚ), 0, 0), (10, 3, 0), (4, 2, 0)] none false = some tr
        ∧ xlimOf tr = some (-1, 11)) := by
  constructor
  · intro points hne crossings ms
    have hxs : points.map Point3.x ≠ [] := by
      cases points with
      | nil => exact absurd rfl hne
      | cons a l => simp
    refine ⟨_, plot_projection_eq points hne crossings ms, ?_, ?_, ?_, ?_, ?_, ?_⟩
    · simp [xlimOf]
    · simp [ylimOf]
    · exact listMin_mem hxs
    · exact listMax_mem hxs
    · exact fun a ha => ⟨listMin_le a ha, le_listMax a ha⟩
    · intro c hc
      have hm : listMin (points.map Point3.x) = c := by
        obtain ⟨p, hp, he⟩ := List.mem_map.mp (listMin_mem hxs)
        rw [← he]; exact hc p hp
      have hM : listMax (points.map Point3.x) = c := by
        obtain ⟨p, hp, he⟩ := List.mem_map.mp (listMax_mem hxs)
        rw [← he]; exact hc p hp
      simp only [xlimOf]
      simp [hm, hM]
  · refine ⟨_, plot_projection_eq _ (by simp) none false, ?_⟩
    simp only [xlimOf]
    simp [Point3.x, listMin, listMax, min_def, max_def]
    norm_num

/-- C6.  `plot_projection` with `crossings=[]` draws zero crossing
markers and does not raise, still sets the axis limits, and behaves like
`crossings=None` observationally, while the two inputs are separated by
different stages of the guard (`None` fails the is-not-None test, `[]`
fails the length test); a nonempty crossing list does produce markers. -/
theorem projection_empty_crossing_list :
    ∀ (points : List Point3), points ≠ [] → ∀ ms : Bool,
      ∃ tr, plot_projection points (some []) ms = some tr
        ∧ crossingsDrawn tr = []
        ∧ (xlimOf tr).isSome = true
        ∧ plot_projection points none ms = some tr
        ∧ (∀ cs : List (ℚ × ℚ), cs ≠ [] →
            ∃ tr2, plot_projection points (some cs) ms = some tr2
              ∧ crossingsDrawn tr2 = cs) := by
  intro points hne ms
  refine ⟨_, plot_projection_eq points hne (some []) ms, ?_, ?_, ?_, ?_⟩
  · cases ms <;> simp [crossingsDrawn]
  · simp [xlimOf]
  · rw [plot_projection_eq points hne none ms]
    simp
  · intro cs hcs
    refine ⟨_, plot_projection_eq points hne (some cs) ms, ?_⟩
    cases ms <;> simp [crossingsDrawn, hcs]

theorem projection_empty_crossing_list_witness :
    ∃ tr, plot_projection [((0 : ℚ), 0, 0), (1, 1, 0)] (some []) false = some tr
      ∧ crossingsDrawn tr = []
      ∧ (xlimOf tr).isSome = true
      ∧ plot_projection [((0 : ℚ), 0, 0), (1, 1, 0)] none false = some tr
      ∧ (∀ cs : List (ℚ × ℚ), cs ≠ [] →
          ∃ tr2, plot_projection [((0 : ℚ), 0, 0), (1, 1, 0)] (some cs) false = some tr2
            ∧ crossingsDrawn tr2 = cs) :=
  projection_empty_crossing_list [((0 : ℚ), 0, 0), (1, 1, 0)] (by simp) false

theorem projection_axis_padding_witness :
    ∃ tr, plot_projection [((1 : ℚ), 2, 3)] (some [(0, 0)]) true = some tr
      ∧ xlimOf tr = some (1, 1) := by
  obtain ⟨tr, h1, _, _, _, _, _, hz⟩ :=
    projection_axis_padding.1 [((1 : ℚ), 2, 3)] (by simp) (some [(0, 0)]) true
  refine ⟨tr, h1, hz 1 ?_⟩
  intro p hp
  simp only [List.mem_singleton] at hp
  rw [hp]
  rfl

/-- C8, counterexample.  The vispy camera distance is *not* 1.5 times
the maximum absolute coordinate value: on an all-negative point set the
code's `1.5*n.max(n.max(points, axis=0))` is negative while the spec's
quantity is positive. -/
theorem vispy_camera_distance_not_abs :
    (plot_line_vispy [((-4 : ℚ), -4, -4), (-2, -2, -2)]).cameraDistance
      ≠ 3 / 2 * maxAbsCoordSpec [((-4 : ℚ), -4, -4), (-2, -2, -2)] := by
  simp only [plot_line_vispy, overallMax, maxAbsCoordSpec, listMax, Point3.x, Point3.y,
    Point3.z, List.map_cons, List.map_nil, List.map_append, List.foldl_cons, List.foldl_nil,
    List.cons_append, List.nil_append]
  norm_num [max_def, abs]

/-- C8, amended.  The vispy adapter's camera distance equals 1.5
times the maximum (signed) coordinate value over the pre-translation point
set, and the tube is recentred by translating by minus the centroid
(the componentwise mean) of the points. -/
theorem vispy_camera_and_centering (points : List Point3) (hne : points ≠ []) :
    ∃ M : ℚ,
      M ∈ points.map Point3.x ++ points.map Point3.y ++ points.map Point3.z
      ∧ (∀ c ∈ points.map Point3.x ++ points.map Point3.y ++ points.map Point3.z, c ≤ M)
      ∧ (plot_line_vispy points).cameraDistance = 3 / 2 * M
      ∧ (points.length : ℚ) * (average points).x = (points.map Point3.x).sum
      ∧ (points.length : ℚ) * (average points).y = (points.map Point3.y).sum
      ∧ (points.length : ℚ) * (average points).z = (points.map Point3.z).sum
      ∧ (plot_line_vispy points).translation
          = (-(average points).x, -(average points).y, -(average points).z) := by
  have hxne : points.map Point3.x ≠ [] := by
    cases points with
    | nil => exact absurd rfl hne
    | cons a l => simp
  have hyne : points.map Point3.y ≠ [] := by
    cases points with
    | nil => exact absurd rfl hne
    | cons a l => simp
  have hzne : points.map Point3.z ≠ [] := by
    cases points with
    | nil => exact absurd rfl hne
    | cons a l => simp
  have hlen : (points.length : ℚ) ≠ 0 := by
    have : points.length ≠ 0 := by
      cases points with
      | nil => exact absurd rfl hne
      | cons a l => simp
    exact_mod_cast this
  refine ⟨overallMax points, ?_, ?_, rfl, ?_, ?_, ?_, ?_⟩
  · have hmem := listMax_mem (l := [listMax (points.map Point3.x),
      listMax (points.map Point3.y), listMax (points.map Point3.z)]) (by simp)
    rw [overallMax]
    simp only [List.mem_cons, List.not_mem_nil, or_false] at hmem
    rcases hmem with h | h | h <;> rw [h] <;>
      simp [List.mem_append, listMax_mem hxne, listMax_mem hyne, listMax_mem hzne]
  · intro c hc
    rcases List.mem_append.mp hc with hc' | hc'
    rcases List.mem_append.mp hc' with hc'' | hc''
    · exact le_trans (le_listMax c hc'') (le_listMax _ (by simp))
    · exact le_trans (le_listMax c hc'') (le_listMax _ (by simp))
    · exact le_trans (le_listMax c hc') (le_listMax _ (by simp))
  · simp only [average, Point3.x]; field_simp
  · simp only [average, Point3.y]; field_simp
  · simp only [average, Point3.z]; field_simp
  · simp only [plot_line_vispy]
    refine Prod.ext ?_ (Prod.ext ?_ ?_) <;> simp

lemma cellDraws_flat (L : List (List Seg × Colour)) :
    cellDraws (L.flatMap
        (fun lc => lc.1.map (fun seg => CellEvent.drawLine seg false lc.2)))
      = L.flatMap (fun lc => lc.1.map (fun seg => (seg, false, lc.2))) := by
  induction L with
  | nil => rfl
  | cons hd tl ih =>
    simp only [List.flatMap_cons, cellDraws, List.filterMap_append] at *
    rw [ih]
    congr 1
    induction hd.1 with
    | nil => rfl
    | cons s ss ihs => simp_all [List.filterMap_cons]

lemma cellDraws_plot_cell (σ : List Colour → List Colour)
    (lines : List (List Seg)) (b : Option Boundary) (clf : Bool) :
    cellDraws (plot_cell σ lines b clf).1
      = (lines.zip (σ (cellColours lines.length))).flatMap
          (fun lc => lc.1.map (fun seg => (seg, false, lc.2))) := by
  simp only [plot_cell]
  rw [show cellDraws (CellEvent.clearScene :: (lines.zip (σ (cellColours lines.length))).flatMap
      (fun lc => lc.1.map (fun seg => CellEvent.drawLine seg false lc.2)))
    = cellDraws ((lines.zip (σ (cellColours lines.length))).flatMap
      (fun lc => lc.1.map (fun seg => CellEvent.drawLine seg false lc.2))) from rfl]
  exact cellDraws_flat _

lemma plot_cell_trace_shape (σ : List Colour → List Colour)
    (lines : List (List Seg)) (b : Option Boundary) (clf : Bool) :
    (plot_cell σ lines b clf).1 = CellEvent.clearScene ::
      (cellDraws (plot_cell σ lines b clf).1).map
        (fun d => CellEvent.drawLine d.1 d.2.1 d.2.2) := by
  rw [cellDraws_plot_cell]
  simp only [plot_cell]
  congr 1
  induction lines.zip (σ (cellColours lines.length)) with
  | nil => rfl
  | cons hd tl ih => simp_all [List.flatMap_cons, List.map_map]

/-- C2, counterexample.  The first draw call of a 3-curve 2-segment
`plot_cell` composition does *not* request a scene clear: every
`plot_line` call is made with `clf=False` (the scene is cleared by a
separate unconditional `may.clf()`). -/
theorem scene_first_draw_does_not_clear :
    ¬ ((cellDraws (plot_cell id cellLines3 none true).1).map
        (fun d => d.2.1)).head? = some true := by
  rw [cellDraws_plot_cell]
  simp [cellLines3, cellColours_eq, List.range_succ]

/-- C2, amended.  A 3-curve, 2-segments-each `plot_cell` composition
issues exactly 6 draw calls, one per segment, with all segments of one
curve given that curve's single colour, the colour list a permutation of
the 3-colour assignment; *none* of the 6 draw calls requests a scene
clear, the scene instead being cleared exactly once before the first draw
call. -/
theorem scene_three_curves_two_segments (σ : List Colour → List Colour)
    (hσ : ∀ l : List Colour, (σ l).Perm l) (lines : List (List Seg))
    (hlen : lines.length = 3) (hseg : ∀ line ∈ lines, line.length = 2)
    (b : Option Boundary) (clf : Bool) :
    (cellDraws (plot_cell σ lines b clf).1).length = 6
    ∧ (∀ d ∈ cellDraws (plot_cell σ lines b clf).1, d.2.1 = false)
    ∧ (∃ cs : List Colour, cs.Perm (cellColours 3)
        ∧ cellDraws (plot_cell σ lines b clf).1
            = (lines.zip cs).flatMap (fun lc => lc.1.map (fun seg => (seg, false, lc.2))))
    ∧ (plot_cell σ lines b clf).1 = CellEvent.clearScene ::
        (cellDraws (plot_cell σ lines b clf).1).map
          (fun d => CellEvent.drawLine d.1 d.2.1 d.2.2) := by
  have hperm : (σ (cellColours lines.length)).Perm (cellColours 3) := by
    rw [hlen]; exact hσ _
  have hcslen : (σ (cellColours lines.length)).length = 3 := by
    rw [hperm.length_eq, cellColours_length]
  refine ⟨?_, ?_, ⟨σ (cellColours lines.length), hperm, cellDraws_plot_cell σ lines b clf⟩,
    plot_cell_trace_shape σ lines b clf⟩
  · rw [cellDraws_plot_cell]
    obtain ⟨l1, l2, l3, rfl⟩ := List.length_eq_three.mp hlen
    obtain ⟨c1, c2, c3, hcs⟩ := List.length_eq_three.mp hcslen
    rw [hcs]
    have h1 : l1.length = 2 := hseg l1 (by simp)
    have h2 : l2.length = 2 := hseg l2 (by simp)
    have h3 : l3.length = 2 := hseg l3 (by simp)
    simp [List.zip_cons_cons, List.flatMap_cons, h1, h2, h3]
  · rw [cellDraws_plot_cell]
    intro d hd
    simp only [List.mem_flatMap, List.mem_map] at hd
    obtain ⟨lc, _, seg, _, rfl⟩ := hd
    rfl

theorem scene_three_curves_two_segments_witness :
    (cellDraws (plot_cell id cellLines3 none false).1).length = 6
    ∧ (∀ d ∈ cellDraws (plot_cell id cellLines3 none false).1, d.2.1 = false)
    ∧ (∃ cs : List Colour, cs.Perm (cellColours 3)
        ∧ cellDraws (plot_cell id cellLines3 none false).1
            = (cellLines3.zip cs).flatMap
                (fun lc => lc.1.map (fun seg => (seg, false, lc.2))))
    ∧ (plot_cell id cellLines3 none false).1 = CellEvent.clearScene ::
        (cellDraws (plot_cell id cellLines3 none false).1).map
          (fun d => CellEvent.drawLine d.1 d.2.1 d.2.2) :=
  scene_three_curves_two_segments id (fun l => List.Perm.refl l) cellLines3 rfl
    (by intro line hl
        simp only [cellLines3, List.mem_cons, List.not_mem_nil, or_false] at hl
        rcases hl with rfl | rfl | rfl <;> rfl)
    none false

/-- C7.  The colour assignment for a `K`-curve scene: the hues are the
`K + 1` evenly spaced samples of the closed interval `[0, 1]` with the
last discarded (giving `i/K` for `i < K`), pushed through full-saturation
full-value HSV; the assignment has exactly `K` colours, all distinct, and
what `random.shuffle` produces is a permutation of that list — it never
changes the colour values, only their order. -/
theorem colour_assignment_properties (K : ℕ) (σ : List Colour → List Colour)
    (hσ : ∀ l : List Colour, (σ l).Perm l) :
    (σ (cellColours K)).length = K
    ∧ (σ (cellColours K)).Nodup
    ∧ (σ (cellColours K)).Perm (cellColours K)
    ∧ (linspace 0 1 (K + 1)).dropLast = (List.range K).map (fun i : ℕ => (i : ℚ) / K)
    ∧ cellColours K = (List.range K).map (fun i : ℕ => hsv_to_rgb ((i : ℚ) / K) 1 1) := by
  have hp := hσ (cellColours K)
  exact ⟨by rw [hp.length_eq, cellColours_length],
    hp.nodup_iff.mpr (cellColours_nodup K), hp, linspace_zero_one K, cellColours_eq K⟩

theorem colour_assignment_properties_witness :
    ((cellColours 3).reverse).length = 3
    ∧ ((cellColours 3).reverse).Nodup
    ∧ ((cellColours 3).reverse).Perm (cellColours 3)
    ∧ (linspace 0 1 4).dropLast = (List.range 3).map (fun i : ℕ => (i : ℚ) / 3)
    ∧ cellColours 3 = (List.range 3).map (fun i : ℕ => hsv_to_rgb ((i : ℚ) / 3) 1 1) :=
  colour_assignment_properties 3 List.reverse (fun l => List.reverse_perm l)

/-- C9.  `plot_cell` normalises a supplied boundary to its 6-tuple of
extents and then never uses it: no draw operation for the boundary box is
issued, and the trace is identical to the one produced with no boundary at
all, contrary to the spec's "render it as a wireframe or translucent
box". -/
theorem boundary_box_never_drawn :
    (plot_cell id cellLines1 (some (Boundary.scalar 5)) true).2 = some [0, 5, 0, 5, 0, 5]
    ∧ ((plot_cell id cellLines1 (some (Boundary.scalar 5)) true).1.filter
        CellEvent.isBoundaryDraw) = []
    ∧ (plot_cell id cellLines1 (some (Boundary.scalar 5)) true).1
        = (plot_cell id cellLines1 none true).1 := by
  refine ⟨rfl, ?_, rfl⟩
  simp [plot_cell, cellLines1, cellColours_eq, List.range_succ, CellEvent.isBoundaryDraw]

/-- C10.  `plot_cell` clears the scene exactly once, at the start,
unconditionally: its `clf` parameter is never consulted, so `clf=False`
still erases the existing scene. -/
theorem scene_clear_unconditional (σ : List Colour → List Colour)
    (lines : List (List Seg)) (b : Option Boundary) :
    (plot_cell σ lines b false).1 = (plot_cell σ lines b true).1
    ∧ (plot_cell σ lines b false).1.head? = some CellEvent.clearScene
    ∧ (plot_cell σ lines b false).1.count CellEvent.clearScene = 1 := by
  refine ⟨rfl, rfl, ?_⟩
  simp only [plot_cell]
  rw [List.count_cons_self]
  have : CellEvent.clearScene ∉ (lines.zip (σ (cellColours lines.length))).flatMap
      (fun lc => lc.1.map (fun seg => CellEvent.drawLine seg false lc.2)) := by
    intro h
    simp only [List.mem_flatMap, List.mem_map] at h
    obtain ⟨lc, _, seg, _, h⟩ := h
    exact CellEvent.noConfusion h
  rw [List.count_eq_zero.mpr this]

theorem vispy_camera_and_centering_witness :
    ∃ M : ℚ,
      M ∈ [((1 : ℚ), 2, 3)].map Point3.x ++ [((1 : ℚ), 2, 3)].map Point3.y
          ++ [((1 : ℚ), 2, 3)].map Point3.z
      ∧ (∀ c ∈ [((1 : ℚ), 2, 3)].map Point3.x ++ [((1 : ℚ), 2, 3)].map Point3.y
          ++ [((1 : ℚ), 2, 3)].map Point3.z, c ≤ M)
      ∧ (plot_line_vispy [((1 : ℚ), 2, 3)]).cameraDistance = 3 / 2 * M
      ∧ (([((1 : ℚ), 2, 3)] : List Point3).length : ℚ) * (average [((1 : ℚ), 2, 3)]).x
          = ([((1 : ℚ), 2, 3)].map Point3.x).sum
      ∧ (([((1 : ℚ), 2, 3)] : List Point3).length : ℚ) * (average [((1 : ℚ), 2, 3)]).y
          = ([((1 : ℚ), 2, 3)].map Point3.y).sum
      ∧ (([((1 : ℚ), 2, 3)] : List Point3).length : ℚ) * (average [((1 : ℚ), 2, 3)]).z
          = ([((1 : ℚ), 2, 3)].map Point3.z).sum
      ∧ (plot_line_vispy [((1 : ℚ), 2, 3)]).translation
          = (-(average [((1 : ℚ), 2, 3)]).x, -(average [((1 : ℚ), 2, 3)]).y,
             -(average [((1 : ℚ), 2, 3)]).z) :=
  vispy_camera_and_centering [((1 : ℚ), 2, 3)] (by simp)

